import Mathlib

/-!
Verification development for `apps/relocperf/main.cpp` (spaint repository).

The program evaluates a camera relocaliser: it compares candidate poses
against ground-truth poses with the "7-scenes" criterion (translation error
at most 5 cm, rotation error at most 5 degrees), walks each sequence's
frame files until the first missing ground-truth file, accumulates
per-stage statistics, and aggregates them into weighted and unweighted
averages.

Modelling conventions:
* `float` arithmetic is idealised as real arithmetic (`ℝ`); the literal
  `0.05f` becomes `5/100` and `M_PI` becomes `Real.pi`.
* Numeric file content is modelled as the list of successfully parseable
  whitespace-separated tokens (`List ℚ` — files hold decimal literals).
* The filesystem interaction of the per-sequence loop is made explicit:
  each file becomes a `PoseFile` record (present-on-disk flag plus token
  list) and the evaluator additionally returns the list of files it
  actually opened for reading, making the I/O trace visible.
* Exceptions (`std::runtime_error`) are modelled with `Except`.
-/

set_option maxHeartbeats 1000000

/-- 4×4 real matrices: the `Eigen::Matrix4f` poses, with `float` idealised as `ℝ`. -/
abbrev Mat4 : Type := Matrix (Fin 4) (Fin 4) ℝ

/-- 3×3 real matrices: the `Eigen::Matrix3f` rotation blocks. -/
abbrev Mat3 : Type := Matrix (Fin 3) (Fin 3) ℝ

/-- `gtPose.block<3,3>(0,0)`: the top-left 3×3 rotation block of a 4×4 pose. -/
def rotationPart (m : Mat4) : Mat3 := fun i j => m i.castSucc j.castSucc

/-- `gtPose.block<3,1>(0,3)`: the top-right 3×1 translation block of a 4×4 pose,
viewed as a vector of `EuclideanSpace ℝ (Fin 3)` so that `‖·‖` is the genuine
Euclidean norm. -/
noncomputable def transVec (m : Mat4) : EuclideanSpace ℝ (Fin 3) :=
  (WithLp.equiv 2 (Fin 3 → ℝ)).symm fun i => m i.castSucc 3

/-- `angular_separation` from `main.cpp`: the angle of the relative rotation
`dr = r2 * r1ᵀ`.  Eigen extracts the angle of the angle-axis decomposition of
`dr`; for a rotation matrix that angle lies in `[0, π]` and equals
`arccos ((trace dr - 1) / 2)`, which is the form used here. -/
noncomputable def angular_separation (r1 r2 : Mat3) : ℝ :=
  Real.arccos (((r2 * r1.transpose).trace - 1) / 2)

/-- The 7-scenes translation threshold `translationMaxError = 0.05f`, in meters. -/
noncomputable def translationMaxError : ℝ := 5 / 100

/-- The 7-scenes angle threshold `angleMaxError = 5.f * M_PI / 180.f`, in radians. -/
noncomputable def angleMaxError : ℝ := 5 * Real.pi / 180

/-- `(gtT - testT).norm()` from `pose_matches`: Eigen's vector norm is the
square root of the sum of squared components. -/
noncomputable def translationError (gtPose testPose : Mat4) : ℝ :=
  Real.sqrt (∑ i : Fin 3, (gtPose i.castSucc 3 - testPose i.castSucc 3) ^ 2)

/-- `pose_matches` from `main.cpp`: true iff the translation error is at most
`translationMaxError` and the angular separation of the rotation blocks is at
most `angleMaxError` (both comparisons non-strict `<=`). -/
noncomputable def pose_matches (gtPose testPose : Mat4) : Bool :=
  @decide (translationError gtPose testPose ≤ translationMaxError ∧
      angular_separation (rotationPart gtPose) (rotationPart testPose) ≤ angleMaxError)
    (Classical.propDecidable _)

/-- A 3×3 matrix is a rotation: orthogonal with determinant one. -/
def IsRotation (m : Mat3) : Prop := m.transpose * m = 1 ∧ m.det = 1

/-- A 4×4 matrix is a rigid transform in homogeneous form: rotation block a
rotation, bottom row `(0 0 0 1)`. -/
def IsRigid (m : Mat4) : Prop :=
  IsRotation (rotationPart m) ∧ m 3 0 = 0 ∧ m 3 1 = 0 ∧ m 3 2 = 0 ∧ m 3 3 = 1

/-- The source's hand-rolled translation error agrees with the Euclidean norm
of the difference of the two translation vectors. -/
lemma translationError_eq_norm (gtPose testPose : Mat4) :
    translationError gtPose testPose = ‖transVec gtPose - transVec testPose‖ := by
  have h := EuclideanSpace.norm_eq (transVec gtPose - transVec testPose)
  rw [h]
  unfold translationError
  congr 1
  refine Finset.sum_congr rfl fun i _ => ?_
  simp [transVec, WithLp.equiv_symm_pi_apply, Real.norm_eq_abs, sq_abs]

/-- Identity pose: identity rotation, zero translation. -/
noncomputable def mIdPose : Mat4 := 1

/-- The identity pose translated by exactly `0.05` meters along the x axis:
a candidate sitting exactly on the translation boundary. -/
noncomputable def mShiftPose : Mat4 := fun i j => if i = 0 ∧ j = 3 then 5 / 100 else (1 : Mat4) i j

lemma rotationPart_one : rotationPart (1 : Mat4) = (1 : Mat3) := by
  ext i j
  simp [rotationPart, Matrix.one_apply, Fin.castSucc_inj]

lemma rotationPart_mShiftPose : rotationPart mShiftPose = (1 : Mat3) := by
  ext i j
  have hj : (j.castSucc : Fin 4) ≠ 3 := ne_of_lt (Fin.castSucc_lt_last j)
  simp [rotationPart, mShiftPose, hj, Matrix.one_apply, Fin.castSucc_inj]

lemma isRotation_one : IsRotation (1 : Mat3) := by
  constructor
  · simp
  · simp

lemma mIdPose_rigid : IsRigid mIdPose := by
  refine ⟨?_, ?_, ?_, ?_, ?_⟩
  · rw [mIdPose, rotationPart_one]
    exact isRotation_one
  · simp [mIdPose, Matrix.one_apply]
  · simp [mIdPose, Matrix.one_apply]
  · simp [mIdPose, Matrix.one_apply]
  · simp [mIdPose, Matrix.one_apply]

lemma mShiftPose_rigid : IsRigid mShiftPose := by
  refine ⟨?_, ?_, ?_, ?_, ?_⟩
  · rw [rotationPart_mShiftPose]
    exact isRotation_one
  · simp [mShiftPose, Matrix.one_apply]
  · simp [mShiftPose, Matrix.one_apply]
  · simp [mShiftPose, Matrix.one_apply]
  · simp [mShiftPose, Matrix.one_apply]

lemma angular_separation_one_one : angular_separation (1 : Mat3) (1 : Mat3) = 0 := by
  unfold angular_separation
  rw [Matrix.transpose_one, mul_one, Matrix.trace_one]
  norm_num [Real.arccos_one]

/-- C1: `pose_matches` returns true iff the Euclidean norm of the difference of
the translation vectors is at most `0.05` meters and the angle of the relative
rotation is at most `5` degrees (`5π/180` radians); both comparisons are
non-strict. -/
theorem pose_matcher_iff_thresholds (gtPose testPose : Mat4)
    (hgt : IsRigid gtPose) (htest : IsRigid testPose) :
    pose_matches gtPose testPose = true ↔
      (‖transVec gtPose - transVec testPose‖ ≤ 5 / 100 ∧
        angular_separation (rotationPart gtPose) (rotationPart testPose) ≤ 5 * Real.pi / 180) := by
  unfold pose_matches
  rw [@decide_eq_true_iff _ (Classical.propDecidable _), translationError_eq_norm]
  rw [translationMaxError, angleMaxError]

/-- Witness for C1: the identity ground-truth pose together with a candidate
translated by exactly `0.05` m with identical rotation; the matcher accepts it
(the translation comparison is non-strict at the boundary). -/
theorem pose_matcher_boundary_witness :
    IsRigid mIdPose ∧ IsRigid mShiftPose ∧ pose_matches mIdPose mShiftPose = true := by
  refine ⟨mIdPose_rigid, mShiftPose_rigid, ?_⟩
  rw [pose_matcher_iff_thresholds mIdPose mShiftPose mIdPose_rigid mShiftPose_rigid]
  constructor
  · rw [← translationError_eq_norm]
    unfold translationError
    rw [Fin.sum_univ_three]
    have h0 : (mIdPose 0 3 - mShiftPose 0 3) ^ 2 = (5 / 100 : ℝ) ^ 2 := by
      simp [mIdPose, mShiftPose, Matrix.one_apply]
    have h1 : (mIdPose 1 3 - mShiftPose 1 3) ^ 2 = 0 := by
      simp [mIdPose, mShiftPose, Matrix.one_apply]
    have h2 : (mIdPose 2 3 - mShiftPose 2 3) ^ 2 = 0 := by
      simp [mIdPose, mShiftPose, Matrix.one_apply]
    have hc0 : ((0 : Fin 3).castSucc : Fin 4) = 0 := rfl
    have hc1 : ((1 : Fin 3).castSucc : Fin 4) = 1 := rfl
    have hc2 : ((2 : Fin 3).castSucc : Fin 4) = 2 := rfl
    rw [hc0, hc1, hc2, h0, h1, h2]
    rw [add_zero, add_zero, Real.sqrt_sq (by norm_num : (0 : ℝ) ≤ 5 / 100)]
  · rw [mIdPose, rotationPart_one, rotationPart_mShiftPose, angular_separation_one_one]
    positivity

/-- C7: the angular separation of two rotation matrices is symmetric in its
arguments (the relative rotations `B·Aᵀ` and `A·Bᵀ` have equal trace, hence
equal angles). -/
theorem angular_separation_symmetric (A B : Mat3)
    (hA : IsRotation A) (hB : IsRotation B) :
    angular_separation A B = angular_separation B A := by
  unfold angular_separation
  have htr : (B * A.transpose).trace = (A * B.transpose).trace := by
    rw [← Matrix.trace_transpose (A * B.transpose), Matrix.transpose_mul,
      Matrix.transpose_transpose]
  rw [htr]

/-- Witness for C7: both hypotheses hold for the identity rotation and the
symmetry equation is obtained from the theorem there. -/
theorem angular_separation_symmetric_witness :
    IsRotation (1 : Mat3) ∧ angular_separation 1 1 = angular_separation 1 1 :=
  ⟨isRotation_one, angular_separation_symmetric 1 1 isRotation_one isRotation_one⟩

/-- A pose file as the evaluator sees it on a fixed filesystem: whether the
path refers to a regular file (`fs::is_regular`), and the list of
whitespace-separated numeric tokens that parse successfully from its content,
in order.  Files hold decimal literals, so tokens are rationals. -/
structure PoseFile where
  present : Bool
  tokens : List ℚ

/-- The `std::runtime_error("File not found: ...")` thrown by
`read_pose_from_file`; no other exception is raised by the parsing code. -/
inductive ReadError where
  | fileNotFound

/-- The sixteen `in >> res(i, j)` stream extractions in row-major order.  An
extraction whose token is missing fails and stores `0` in the target (C++11
value-initialisation on extraction failure; entries after the first failure
are indeterminate in the source and are idealised as `0` here — the essential
point is that the stream signals no failure to the caller). -/
noncomputable def parse16 (tokens : List ℚ) : Mat4 :=
  fun i j => ((tokens.getD (4 * i.val + j.val) 0 : ℚ) : ℝ)

/-- `read_pose_from_file` from `main.cpp`: throws iff the path is not a
regular file, otherwise reads the sixteen matrix entries from the stream. -/
noncomputable def read_pose_from_file (f : PoseFile) : Except ReadError Mat4 :=
  if f.present then Except.ok (parse16 f.tokens) else Except.error ReadError.fileNotFound

/-- `pose_file_matches` from `main.cpp`: false if the file is missing,
otherwise the 7-scenes decision on the pose read from the file; an exception
from the read would propagate through the `Except` bind. -/
noncomputable def pose_file_matches (gtPose : Mat4) (poseFile : PoseFile) :
    Except ReadError Bool :=
  if poseFile.present = false then Except.ok false
  else do
    let otherPose ← read_pose_from_file poseFile
    return pose_matches gtPose otherPose

lemma pose_file_matches_of_missing (gtPose : Mat4) (f : PoseFile)
    (hf : f.present = false) : pose_file_matches gtPose f = Except.ok false := by
  simp [pose_file_matches, hf]

lemma pose_file_matches_of_present (gtPose : Mat4) (f : PoseFile)
    (hf : f.present = true) :
    pose_file_matches gtPose f = Except.ok (pose_matches gtPose (parse16 f.tokens)) := by
  simp [pose_file_matches, read_pose_from_file, hf]

lemma pose_file_matches_ok_exists (gtPose : Mat4) (f : PoseFile) :
    ∃ b, pose_file_matches gtPose f = Except.ok b := by
  cases hf : f.present
  · exact ⟨false, pose_file_matches_of_missing gtPose f hf⟩
  · exact ⟨_, pose_file_matches_of_present gtPose f hf⟩

/-- A pose one meter away from the identity along the x axis. -/
noncomputable def mFarPose : Mat4 := fun i j => if i = 0 ∧ j = 3 then 1 else (1 : Mat4) i j

lemma pose_matches_mFarPose_zero : pose_matches mFarPose (parse16 []) = false := by
  unfold pose_matches
  rw [decide_eq_false_iff_not]
  rintro ⟨htrans, -⟩
  unfold translationError at htrans
  rw [Fin.sum_univ_three] at htrans
  have hc0 : ((0 : Fin 3).castSucc : Fin 4) = 0 := rfl
  have hc1 : ((1 : Fin 3).castSucc : Fin 4) = 1 := rfl
  have hc2 : ((2 : Fin 3).castSucc : Fin 4) = 2 := rfl
  rw [hc0, hc1, hc2] at htrans
  have h0 : (mFarPose 0 3 - parse16 [] 0 3) ^ 2 = 1 := by
    simp [mFarPose, parse16]
  have h1 : (mFarPose 1 3 - parse16 [] 1 3) ^ 2 = 0 := by
    simp [mFarPose, parse16, Matrix.one_apply]
  have h2 : (mFarPose 2 3 - parse16 [] 2 3) ^ 2 = 0 := by
    simp [mFarPose, parse16, Matrix.one_apply]
  rw [h0, h1, h2, add_zero, add_zero, Real.sqrt_one, translationMaxError] at htrans
  linarith

/-- C3 (amended): a missing candidate file yields the decision `false` (not an
error); a present file always yields a match decision as well — in particular
a present file with malformed numeric content does NOT propagate a parse
failure, because the stream extractions fail silently. -/
theorem file_matcher_missing_false_and_present_ok (gtPose : Mat4) (poseFile : PoseFile) :
    (poseFile.present = false → pose_file_matches gtPose poseFile = Except.ok false) ∧
      (∃ b, pose_file_matches gtPose poseFile = Except.ok b) :=
  ⟨pose_file_matches_of_missing gtPose poseFile, pose_file_matches_ok_exists gtPose poseFile⟩

/-- Witness for C3: a concrete missing candidate file is treated as a
no-match decision, not as an error. -/
theorem file_matcher_missing_false_witness :
    pose_file_matches mIdPose ⟨false, []⟩ = Except.ok false :=
  (file_matcher_missing_false_and_present_ok mIdPose ⟨false, []⟩).1 rfl

/-- Counterexample to C3 as stated: a candidate file that exists but whose
numeric content is malformed (zero of the sixteen tokens parse) still returns
a match decision (`Except.ok false`), instead of propagating a parse
failure to the caller. -/
theorem file_matcher_malformed_returns_decision :
    (⟨true, []⟩ : PoseFile).present = true ∧
      (⟨true, []⟩ : PoseFile).tokens.length < 16 ∧
      pose_file_matches mFarPose ⟨true, []⟩ = Except.ok false := by
  refine ⟨rfl, by simp, ?_⟩
  rw [pose_file_matches_of_present mFarPose ⟨true, []⟩ rfl]
  rw [pose_matches_mFarPose_zero]

/-- C10: `pose_file_matches` invokes `read_pose_from_file` only after checking
that the path is a regular file, so the parser's missing-file error is
unreachable from this call site: the wrapper always returns a decision. -/
theorem file_matcher_never_missing_error (gtPose : Mat4) (poseFile : PoseFile) :
    ∃ b, pose_file_matches gtPose poseFile = Except.ok b :=
  pose_file_matches_ok_exists gtPose poseFile

/-- The fixed filesystem state a sequence evaluation runs against: for each
frame index, the ground-truth pose file `frame-%06i.pose.txt` and the three
candidate pose files `pose-%06i.reloc.txt`, `pose-%06i.icp.txt`,
`pose-%06i.final.txt`.  Both `SequentialPathGenerator`s start at index 0 and
are incremented together, so a single index addresses all four files. -/
structure FrameFS where
  gt : ℕ → PoseFile
  reloc : ℕ → PoseFile
  icp : ℕ → PoseFile
  final : ℕ → PoseFile

/-- Which of the four per-frame files a read event touched. -/
inductive FileKind where
  | gt
  | reloc
  | icp
  | final
deriving DecidableEq

/-- `SequenceResults` from `main.cpp`.  The C++ counters are `int`s that start
at zero and are only ever incremented, so they are modelled as `ℕ`. -/
structure SequenceResults where
  poseCount : ℕ := 0
  validPosesAfterReloc : ℕ := 0
  validPosesAfterICP : ℕ := 0
  validFinalPoses : ℕ := 0
  relocalizationResults : List Bool := []
  icpResults : List Bool := []
  finalResults : List Bool := []

/-- One loop iteration's accumulation step: `+=` on the three counters,
`push_back` on the three boolean sequences, `++poseCount`. -/
def pushFrame (res : SequenceResults) (validReloc validICP validFinal : Bool) :
    SequenceResults :=
  { poseCount := res.poseCount + 1
    validPosesAfterReloc := res.validPosesAfterReloc + (if validReloc then 1 else 0)
    validPosesAfterICP := res.validPosesAfterICP + (if validICP then 1 else 0)
    validFinalPoses := res.validFinalPoses + (if validFinal then 1 else 0)
    relocalizationResults := res.relocalizationResults ++ [validReloc]
    icpResults := res.icpResults ++ [validICP]
    finalResults := res.finalResults ++ [validFinal] }

/-- The files opened for reading during the loop iteration at index `idx`:
the ground-truth file (present by assumption when the iteration runs), and
each candidate file exactly when it exists (`pose_file_matches` only opens a
file after its `is_regular` check succeeds). -/
def iterationReads (fs : FrameFS) (idx : ℕ) : List (FileKind × ℕ) :=
  (FileKind.gt ::
      ((if (fs.reloc idx).present then [FileKind.reloc] else []) ++
        (if (fs.icp idx).present then [FileKind.icp] else []) ++
        (if (fs.final idx).present then [FileKind.final] else []))).map
    fun k => (k, idx)

/-- The reads performed by `d` consecutive loop iterations starting at `idx`. -/
def segReads (fs : FrameFS) (idx : ℕ) : ℕ → List (FileKind × ℕ)
  | 0 => []
  | d + 1 => iterationReads fs idx ++ segReads fs (idx + 1) d

/-- The boolean decision `pose_file_matches` produces when it does not throw:
false for a missing file, otherwise the 7-scenes decision on the parsed pose. -/
noncomputable def matchDecision (gtPose : Mat4) (f : PoseFile) : Bool :=
  if f.present then pose_matches gtPose (parse16 f.tokens) else false

lemma pose_file_matches_eq_decision (gtPose : Mat4) (f : PoseFile) :
    pose_file_matches gtPose f = Except.ok (matchDecision gtPose f) := by
  cases hf : f.present
  · rw [pose_file_matches_of_missing gtPose f hf]
    simp [matchDecision, hf]
  · rw [pose_file_matches_of_present gtPose f hf]
    simp [matchDecision, hf]

lemma except_ok_bind {α β : Type} (a : α) (f : α → Except ReadError β) :
    ((Except.ok a : Except ReadError α) >>= f) = f a := rfl

/-- `evaluate_sequence`'s `while(true)` loop from `main.cpp`, as a
fuel-indexed recursion (the C++ loop has no a-priori bound; every claim about
it supplies enough fuel to reach the first missing ground-truth file).  The
second component of the result is the trace of file reads performed, making
the loop's I/O explicit.  Running out of fuel returns the state reached so
far. -/
noncomputable def evaluate_sequence_aux (fs : FrameFS) :
    ℕ → ℕ → SequenceResults → List (FileKind × ℕ) →
      Except ReadError (SequenceResults × List (FileKind × ℕ))
  | 0, _, res, acc => Except.ok (res, acc)
  | fuel + 1, idx, res, acc =>
    if (fs.gt idx).present = false then Except.ok (res, acc)
    else do
      let gtPose ← read_pose_from_file (fs.gt idx)
      let validReloc ← pose_file_matches gtPose (fs.reloc idx)
      let validICP ← pose_file_matches gtPose (fs.icp idx)
      let validFinal ← pose_file_matches gtPose (fs.final idx)
      evaluate_sequence_aux fs fuel (idx + 1)
        (pushFrame res validReloc validICP validFinal) (acc ++ iterationReads fs idx)

/-- `evaluate_sequence` from `main.cpp`: start at frame index 0 with an empty
`SequenceResults` (and an empty read trace). -/
noncomputable def evaluate_sequence (fs : FrameFS) (fuel : ℕ) :
    Except ReadError (SequenceResults × List (FileKind × ℕ)) :=
  evaluate_sequence_aux fs fuel 0 {} []

lemma evaluate_sequence_aux_step (fs : FrameFS) (fuel idx : ℕ)
    (res : SequenceResults) (acc : List (FileKind × ℕ))
    (h : (fs.gt idx).present = true) :
    evaluate_sequence_aux fs (fuel + 1) idx res acc =
      evaluate_sequence_aux fs fuel (idx + 1)
        (pushFrame res
          (matchDecision (parse16 (fs.gt idx).tokens) (fs.reloc idx))
          (matchDecision (parse16 (fs.gt idx).tokens) (fs.icp idx))
          (matchDecision (parse16 (fs.gt idx).tokens) (fs.final idx)))
        (acc ++ iterationReads fs idx) := by
  conv_lhs => rw [evaluate_sequence_aux]
  rw [if_neg (by simp [h])]
  rw [show read_pose_from_file (fs.gt idx) = Except.ok (parse16 (fs.gt idx).tokens) from by
    simp [read_pose_from_file, h]]
  rw [except_ok_bind, pose_file_matches_eq_decision, except_ok_bind,
    pose_file_matches_eq_decision, except_ok_bind, pose_file_matches_eq_decision,
    except_ok_bind]

/-- The `SequenceResults` invariant: each boolean sequence has exactly
`poseCount` elements and each counter equals the number of `true` entries in
its sequence. -/
def resultsInv (res : SequenceResults) : Prop :=
  res.relocalizationResults.length = res.poseCount ∧
    res.icpResults.length = res.poseCount ∧
    res.finalResults.length = res.poseCount ∧
    res.validPosesAfterReloc = res.relocalizationResults.count true ∧
    res.validPosesAfterICP = res.icpResults.count true ∧
    res.validFinalPoses = res.finalResults.count true

lemma resultsInv_empty : resultsInv {} := by
  unfold resultsInv
  simp

lemma resultsInv_pushFrame (res : SequenceResults) (b1 b2 b3 : Bool)
    (h : resultsInv res) : resultsInv (pushFrame res b1 b2 b3) := by
  obtain ⟨hl1, hl2, hl3, hc1, hc2, hc3⟩ := h
  unfold resultsInv pushFrame
  refine ⟨?_, ?_, ?_, ?_, ?_, ?_⟩ <;>
    simp [hl1, hl2, hl3, hc1, hc2, hc3, List.count_append] <;>
    cases b1 <;> cases b2 <;> cases b3 <;> simp

lemma iterationReads_snd (fs : FrameFS) (idx : ℕ) (p : FileKind × ℕ)
    (hp : p ∈ iterationReads fs idx) : p.2 = idx := by
  rw [iterationReads, List.mem_map] at hp
  obtain ⟨k, -, rfl⟩ := hp
  rfl

lemma segReads_snd (fs : FrameFS) :
    ∀ d idx p, p ∈ segReads fs idx d → idx ≤ p.2 ∧ p.2 < idx + d := by
  intro d
  induction d with
  | zero => intro idx p hp; simp [segReads] at hp
  | succ k ih =>
    intro idx p hp
    rw [segReads, List.mem_append] at hp
    rcases hp with hp | hp
    · have := iterationReads_snd fs idx p hp
      omega
    · have := ih (idx + 1) p hp
      omega

lemma segReads_gt_mem (fs : FrameFS) :
    ∀ d idx j, j < d → (FileKind.gt, idx + j) ∈ segReads fs idx d := by
  intro d
  induction d with
  | zero => omega
  | succ k ih =>
    intro idx j hj
    rw [segReads, List.mem_append]
    cases j with
    | zero =>
      refine Or.inl ?_
      rw [iterationReads, List.mem_map]
      exact ⟨FileKind.gt, List.mem_cons_self _ _, by rw [add_zero]⟩
    | succ j =>
      refine Or.inr ?_
      have h := ih (idx + 1) j (by omega)
      have harith : idx + 1 + j = idx + (j + 1) := by omega
      rwa [harith] at h

/-- Master specification of the loop: if the first missing ground-truth index
from `idx` onwards is `idx + d` and there is enough fuel, the loop runs
exactly `d` iterations, terminates normally, appends exactly the reads of
those iterations to the trace, adds `d` to `poseCount`, and preserves the
results invariant. -/
lemma evaluate_sequence_aux_spec (fs : FrameFS) :
    ∀ d fuel idx res acc, d < fuel →
      (fs.gt (idx + d)).present = false →
      (∀ j, j < d → (fs.gt (idx + j)).present = true) →
      ∃ res' : SequenceResults,
        evaluate_sequence_aux fs fuel idx res acc =
            Except.ok (res', acc ++ segReads fs idx d) ∧
          res'.poseCount = res.poseCount + d ∧
          (resultsInv res → resultsInv res') := by
  intro d
  induction d with
  | zero =>
    intro fuel idx res acc hfuel hgap _
    obtain ⟨f, rfl⟩ : ∃ f, fuel = f + 1 := ⟨fuel - 1, by omega⟩
    rw [add_zero] at hgap
    refine ⟨res, ?_, by omega, fun h => h⟩
    rw [segReads, List.append_nil]
    conv_lhs => rw [evaluate_sequence_aux]
    rw [if_pos hgap]
  | succ k ih =>
    intro fuel idx res acc hfuel hgap hrun
    obtain ⟨f, rfl⟩ : ∃ f, fuel = f + 1 := ⟨fuel - 1, by omega⟩
    have h0 : (fs.gt idx).present = true := by
      have := hrun 0 (Nat.succ_pos k)
      rwa [add_zero] at this
    rw [evaluate_sequence_aux_step fs f idx res acc h0]
    have hgap' : (fs.gt (idx + 1 + k)).present = false := by
      have : idx + 1 + k = idx + (k + 1) := by omega
      rwa [this]
    have hrun' : ∀ j, j < k → (fs.gt (idx + 1 + j)).present = true := by
      intro j hj
      have : idx + 1 + j = idx + (j + 1) := by omega
      rw [this]
      exact hrun (j + 1) (by omega)
    obtain ⟨res', heq, hcount, hinv⟩ :=
      ih f (idx + 1) (pushFrame res
          (matchDecision (parse16 (fs.gt idx).tokens) (fs.reloc idx))
          (matchDecision (parse16 (fs.gt idx).tokens) (fs.icp idx))
          (matchDecision (parse16 (fs.gt idx).tokens) (fs.final idx)))
        (acc ++ iterationReads fs idx) (by omega) hgap' hrun'
    refine ⟨res', ?_, ?_, ?_⟩
    · rw [heq, segReads, List.append_assoc]
    · rw [hcount]
      have hp : ∀ b1 b2 b3, (pushFrame res b1 b2 b3).poseCount = res.poseCount + 1 :=
        fun _ _ _ => rfl
      rw [hp]
      omega
    · intro h
      exact hinv (resultsInv_pushFrame res _ _ _ h)

lemma evaluate_sequence_aux_ok_inv (fs : FrameFS) :
    ∀ fuel idx res acc, ∃ res' trace,
      evaluate_sequence_aux fs fuel idx res acc = Except.ok (res', trace) ∧
        (resultsInv res → resultsInv res') := by
  intro fuel
  induction fuel with
  | zero => intro idx res acc; exact ⟨res, acc, rfl, fun h => h⟩
  | succ f ih =>
    intro idx res acc
    cases hp : (fs.gt idx).present
    · refine ⟨res, acc, ?_, fun h => h⟩
      conv_lhs => rw [evaluate_sequence_aux]
      rw [if_pos hp]
    · rw [evaluate_sequence_aux_step fs f idx res acc hp]
      obtain ⟨res', trace, heq, hinv⟩ := ih (idx + 1)
        (pushFrame res
          (matchDecision (parse16 (fs.gt idx).tokens) (fs.reloc idx))
          (matchDecision (parse16 (fs.gt idx).tokens) (fs.icp idx))
          (matchDecision (parse16 (fs.gt idx).tokens) (fs.final idx)))
        (acc ++ iterationReads fs idx)
      exact ⟨res', trace, heq, fun h => hinv (resultsInv_pushFrame res _ _ _ h)⟩

/-- C2: starting at frame index 0 and incrementing by 1, the evaluator stops
at the first index `N` whose ground-truth file is missing, terminating
normally (`Except.ok`); `poseCount` equals `N`, the length of the longest run
of consecutive zero-based ground-truth files present; every file read has
index below `N` (nothing at or beyond the gap is ever read), and the
ground-truth file of every index below `N` is read. -/
theorem sequence_eval_stops_at_first_gap (fs : FrameFS) (N fuel : ℕ)
    (hgap : (fs.gt N).present = false)
    (hrun : ∀ i, i < N → (fs.gt i).present = true)
    (hfuel : N < fuel) :
    ∃ res trace,
      evaluate_sequence fs fuel = Except.ok (res, trace) ∧
        res.poseCount = N ∧
        (∀ p ∈ trace, p.2 < N) ∧
        (∀ j, j < N → (FileKind.gt, j) ∈ trace) := by
  obtain ⟨res', heq, hcount, -⟩ :=
    evaluate_sequence_aux_spec fs N fuel 0 {} [] hfuel (by rwa [zero_add])
      (fun j hj => by rw [zero_add]; exact hrun j hj)
  rw [List.nil_append] at heq
  refine ⟨res', segReads fs 0 N, ?_, ?_, ?_, ?_⟩
  · rw [evaluate_sequence, heq]
  · have h0 : ({} : SequenceResults).poseCount = 0 := rfl
    omega
  · intro p hp
    have := segReads_snd fs N 0 p hp
    omega
  · intro j hj
    have := segReads_gt_mem fs N 0 j hj
    rwa [zero_add] at this

/-- Sixteen tokens of a row-major identity matrix. -/
def idTokens : List ℚ := [1, 0, 0, 0, 0, 1, 0, 0, 0, 0, 1, 0, 0, 0, 0, 1]

/-- A filesystem with ground-truth files for frames 0 and 1 only and no
candidate files at all. -/
def fsTwoFrames : FrameFS where
  gt := fun n => if n < 2 then ⟨true, idTokens⟩ else ⟨false, []⟩
  reloc := fun _ => ⟨false, []⟩
  icp := fun _ => ⟨false, []⟩
  final := fun _ => ⟨false, []⟩

/-- Witness for C2: on a filesystem with exactly ground-truth frames 0 and 1,
the evaluator terminates normally with `poseCount = 2`, reads only indices
below 2 and reads both ground-truth files. -/
theorem sequence_eval_stops_at_first_gap_witness :
    ∃ res trace,
      evaluate_sequence fsTwoFrames 3 = Except.ok (res, trace) ∧
        res.poseCount = 2 ∧
        (∀ p ∈ trace, p.2 < 2) ∧
        (∀ j, j < 2 → (FileKind.gt, j) ∈ trace) :=
  sequence_eval_stops_at_first_gap fsTwoFrames 2 3 (by decide)
    (by decide) (by omega)

/-- C4: the `SequenceResults` invariant — boolean sequences of length
`poseCount` whose `true`-counts equal the counters — is preserved by every
frame iteration (`pushFrame`) and holds for the result of every run of the
evaluator, for any fuel; since running with smaller fuel stops after exactly
that many iterations, this covers the state after every iteration, not just
the final one. -/
theorem sequence_results_invariant :
    (∀ res b1 b2 b3, resultsInv res → resultsInv (pushFrame res b1 b2 b3)) ∧
      (∀ fs fuel res trace,
        evaluate_sequence fs fuel = Except.ok (res, trace) → resultsInv res) := by
  refine ⟨resultsInv_pushFrame, ?_⟩
  intro fs fuel res trace heq
  obtain ⟨res', trace', heq', hinv⟩ := evaluate_sequence_aux_ok_inv fs fuel 0 {} []
  rw [evaluate_sequence] at heq
  rw [heq'] at heq
  simp only [Except.ok.injEq, Prod.mk.injEq] at heq
  obtain ⟨h1, -⟩ := heq
  rw [← h1]
  exact hinv resultsInv_empty

/-- A filesystem with no files at all. -/
def fsEmptySeq : FrameFS where
  gt := fun _ => ⟨false, []⟩
  reloc := fun _ => ⟨false, []⟩
  icp := fun _ => ⟨false, []⟩
  final := fun _ => ⟨false, []⟩

lemma evaluate_sequence_fsEmptySeq : evaluate_sequence fsEmptySeq 1 = Except.ok ({}, []) := by
  rw [evaluate_sequence]
  conv_lhs => rw [evaluate_sequence_aux]
  rw [if_pos (show (fsEmptySeq.gt 0).present = false from rfl)]

/-- Witness for C4: the invariant obtained from the theorem for a concrete
run (empty sequence), then propagated through a concrete frame iteration. -/
theorem sequence_results_invariant_witness :
    resultsInv {} ∧ resultsInv (pushFrame {} true false true) := by
  have h := sequence_results_invariant.2 fsEmptySeq 1 {} [] evaluate_sequence_fsEmptySeq
  exact ⟨h, sequence_results_invariant.1 {} true false true h⟩

/-- The unweighted average of `main.cpp` (lines 334–365), raw-match stage:
sum over sequences of `validPosesAfterReloc / poseCount`, divided by the
number of sequences, times 100. -/
noncomputable def unweightedAvgReloc (rs : List SequenceResults) : ℝ :=
  (rs.map fun r => (r.validPosesAfterReloc : ℝ) / (r.poseCount : ℝ)).sum /
    (rs.length : ℝ) * 100

/-- The unweighted average, ICP stage. -/
noncomputable def unweightedAvgICP (rs : List SequenceResults) : ℝ :=
  (rs.map fun r => (r.validPosesAfterICP : ℝ) / (r.poseCount : ℝ)).sum /
    (rs.length : ℝ) * 100

/-- The unweighted average, final (ICP+SVM) stage. -/
noncomputable def unweightedAvgFinal (rs : List SequenceResults) : ℝ :=
  (rs.map fun r => (r.validFinalPoses : ℝ) / (r.poseCount : ℝ)).sum /
    (rs.length : ℝ) * 100

/-- The weighted average of `main.cpp` (lines 339–369), raw-match stage:
sum of raw match counts over all sequences divided by the sum of all
`poseCount`s, times 100. -/
noncomputable def weightedAvgReloc (rs : List SequenceResults) : ℝ :=
  (rs.map fun r => (r.validPosesAfterReloc : ℝ)).sum /
    (rs.map fun r => (r.poseCount : ℝ)).sum * 100

/-- The weighted average, ICP stage. -/
noncomputable def weightedAvgICP (rs : List SequenceResults) : ℝ :=
  (rs.map fun r => (r.validPosesAfterICP : ℝ)).sum /
    (rs.map fun r => (r.poseCount : ℝ)).sum * 100

/-- The weighted average, final (ICP+SVM) stage. -/
noncomputable def weightedAvgFinal (rs : List SequenceResults) : ℝ :=
  (rs.map fun r => (r.validFinalPoses : ℝ)).sum /
    (rs.map fun r => (r.poseCount : ℝ)).sum * 100

/-- The arithmetic mean of a list of reals, as the spec words it. -/
noncomputable def specMean (xs : List ℝ) : ℝ := xs.sum / (xs.length : ℝ)

/-- A 10-frame sequence with 100% matches at every stage. -/
def seqAllMatch10 : SequenceResults :=
  ⟨10, 10, 10, 10, List.replicate 10 true, List.replicate 10 true, List.replicate 10 true⟩

/-- A 90-frame sequence with 0% matches at every stage. -/
def seqNoMatch90 : SequenceResults :=
  ⟨90, 0, 0, 0, List.replicate 90 false, List.replicate 90 false, List.replicate 90 false⟩

lemma unweighted_reloc_eq_mean (rs : List SequenceResults) :
    unweightedAvgReloc rs =
      specMean (rs.map fun r => (r.validPosesAfterReloc : ℝ) / (r.poseCount : ℝ)) * 100 := by
  rw [unweightedAvgReloc, specMean, List.length_map]

lemma unweighted_icp_eq_mean (rs : List SequenceResults) :
    unweightedAvgICP rs =
      specMean (rs.map fun r => (r.validPosesAfterICP : ℝ) / (r.poseCount : ℝ)) * 100 := by
  rw [unweightedAvgICP, specMean, List.length_map]

lemma unweighted_final_eq_mean (rs : List SequenceResults) :
    unweightedAvgFinal rs =
      specMean (rs.map fun r => (r.validFinalPoses : ℝ) / (r.poseCount : ℝ)) * 100 := by
  rw [unweightedAvgFinal, specMean, List.length_map]

lemma weighted_reloc_eq_ratio_of_sums (rs : List SequenceResults) :
    weightedAvgReloc rs =
      (((rs.map fun r => r.validPosesAfterReloc).sum : ℕ) : ℝ) /
        (((rs.map fun r => r.poseCount).sum : ℕ) : ℝ) * 100 := by
  rw [weightedAvgReloc, Nat.cast_list_sum, Nat.cast_list_sum, List.map_map, List.map_map]
  simp only [Function.comp_def]

lemma weighted_icp_eq_ratio_of_sums (rs : List SequenceResults) :
    weightedAvgICP rs =
      (((rs.map fun r => r.validPosesAfterICP).sum : ℕ) : ℝ) /
        (((rs.map fun r => r.poseCount).sum : ℕ) : ℝ) * 100 := by
  rw [weightedAvgICP, Nat.cast_list_sum, Nat.cast_list_sum, List.map_map, List.map_map]
  simp only [Function.comp_def]

lemma weighted_final_eq_ratio_of_sums (rs : List SequenceResults) :
    weightedAvgFinal rs =
      (((rs.map fun r => r.validFinalPoses).sum : ℕ) : ℝ) /
        (((rs.map fun r => r.poseCount).sum : ℕ) : ℝ) * 100 := by
  rw [weightedAvgFinal, Nat.cast_list_sum, Nat.cast_list_sum, List.map_map, List.map_map]
  simp only [Function.comp_def]

/-- C5: per stage, the unweighted average is the arithmetic mean over the
sequences of `matchCount/poseCount` (times 100), and the weighted average is
the ratio of total match count to total pose count (times 100); on a 10-frame
sequence at 100% together with a 90-frame sequence at 0% the weighted average
is 10 and the unweighted average is 50. -/
theorem aggregator_averages :
    (∀ rs : List SequenceResults,
        unweightedAvgReloc rs =
            specMean (rs.map fun r => (r.validPosesAfterReloc : ℝ) / (r.poseCount : ℝ)) * 100 ∧
          unweightedAvgICP rs =
            specMean (rs.map fun r => (r.validPosesAfterICP : ℝ) / (r.poseCount : ℝ)) * 100 ∧
          unweightedAvgFinal rs =
            specMean (rs.map fun r => (r.validFinalPoses : ℝ) / (r.poseCount : ℝ)) * 100 ∧
          weightedAvgReloc rs =
            (((rs.map fun r => r.validPosesAfterReloc).sum : ℕ) : ℝ) /
              (((rs.map fun r => r.poseCount).sum : ℕ) : ℝ) * 100 ∧
          weightedAvgICP rs =
            (((rs.map fun r => r.validPosesAfterICP).sum : ℕ) : ℝ) /
              (((rs.map fun r => r.poseCount).sum : ℕ) : ℝ) * 100 ∧
          weightedAvgFinal rs =
            (((rs.map fun r => r.validFinalPoses).sum : ℕ) : ℝ) /
              (((rs.map fun r => r.poseCount).sum : ℕ) : ℝ) * 100) ∧
      weightedAvgReloc [seqAllMatch10, seqNoMatch90] = 10 ∧
      unweightedAvgReloc [seqAllMatch10, seqNoMatch90] = 50 := by
  refine ⟨fun rs => ⟨unweighted_reloc_eq_mean rs, unweighted_icp_eq_mean rs,
    unweighted_final_eq_mean rs, weighted_reloc_eq_ratio_of_sums rs,
    weighted_icp_eq_ratio_of_sums rs, weighted_final_eq_ratio_of_sums rs⟩, ?_, ?_⟩
  · rw [weightedAvgReloc]
    simp [seqAllMatch10, seqNoMatch90]
    norm_num
  · rw [unweightedAvgReloc]
    simp [seqAllMatch10, seqNoMatch90]
    norm_num

/-- What the claim asserts the aggregator does for the unweighted mean:
sequences with `poseCount = 0` removed before averaging (raw-match stage). -/
noncomputable def specUnweightedRelocExcludingZero (rs : List SequenceResults) : ℝ :=
  specMean ((rs.filter fun r => r.poseCount != 0).map fun r =>
    (r.validPosesAfterReloc : ℝ) / (r.poseCount : ℝ)) * 100

/-- C6 (amended): the aggregator does NOT exclude a zero-`poseCount` sequence.
In the weighted average it contributes zero to numerator and denominator
(numerically the same as exclusion), but the unweighted mean still divides by
the total number of sequences including it, the zero sequence contributing
the junk value of `0/0` (`NaN` in the C++ floats, `0` in this real-valued
idealisation) to the numerator. -/
theorem aggregator_zero_pose_count (rs : List SequenceResults) (z : SequenceResults)
    (hz : z.poseCount = 0) (hzr : z.validPosesAfterReloc = 0)
    (hzi : z.validPosesAfterICP = 0) (hzf : z.validFinalPoses = 0) :
    weightedAvgReloc (z :: rs) = weightedAvgReloc rs ∧
      weightedAvgICP (z :: rs) = weightedAvgICP rs ∧
      weightedAvgFinal (z :: rs) = weightedAvgFinal rs ∧
      unweightedAvgReloc (z :: rs) =
        (rs.map fun r => (r.validPosesAfterReloc : ℝ) / (r.poseCount : ℝ)).sum /
          ((rs.length : ℝ) + 1) * 100 := by
  refine ⟨?_, ?_, ?_, ?_⟩
  · rw [weightedAvgReloc, weightedAvgReloc]
    simp [hz, hzr]
  · rw [weightedAvgICP, weightedAvgICP]
    simp [hz, hzi]
  · rw [weightedAvgFinal, weightedAvgFinal]
    simp [hz, hzf]
  · rw [unweightedAvgReloc]
    simp [hz, hzr]

/-- Witness for C6 (amended): a concrete zero-`poseCount` sequence next to a
fully matched 10-frame sequence. -/
theorem aggregator_zero_pose_count_witness :
    weightedAvgReloc [{}, seqAllMatch10] = weightedAvgReloc [seqAllMatch10] ∧
      weightedAvgICP [{}, seqAllMatch10] = weightedAvgICP [seqAllMatch10] ∧
      weightedAvgFinal [{}, seqAllMatch10] = weightedAvgFinal [seqAllMatch10] ∧
      unweightedAvgReloc [{}, seqAllMatch10] =
        ([seqAllMatch10].map fun r =>
            (r.validPosesAfterReloc : ℝ) / (r.poseCount : ℝ)).sum /
          (([seqAllMatch10].length : ℝ) + 1) * 100 :=
  aggregator_zero_pose_count [seqAllMatch10] {} rfl rfl rfl rfl

/-- Counterexample to C6 as stated: with a zero-`poseCount` sequence and a
fully matched 10-frame sequence, the aggregator's unweighted average is 50
(denominator 2, including the zero sequence), whereas excluding the zero
sequence — what the claim asserts — would give 100. -/
theorem aggregator_zero_not_excluded :
    unweightedAvgReloc [{}, seqAllMatch10] = 50 ∧
      specUnweightedRelocExcludingZero [{}, seqAllMatch10] = 100 ∧
      unweightedAvgReloc [{}, seqAllMatch10] ≠
        specUnweightedRelocExcludingZero [{}, seqAllMatch10] := by
  have h1 : unweightedAvgReloc [{}, seqAllMatch10] = 50 := by
    rw [unweightedAvgReloc]
    simp [seqAllMatch10]
    norm_num
  have h2 : specUnweightedRelocExcludingZero [{}, seqAllMatch10] = 100 := by
    rw [specUnweightedRelocExcludingZero, specMean]
    simp [seqAllMatch10, List.filter]
  refine ⟨h1, h2, ?_⟩
  rw [h1, h2]
  norm_num

/-- The per-sequence try/catch in `main` (lines 289–306): every sequence is
processed; a successful evaluation is recorded in the results map, a
`std::runtime_error` from one sequence's evaluation only emits a diagnostic
and the loop continues with the remaining sequences.  Modelled over an
arbitrary assignment of evaluation outcomes to sequence names. -/
def record_results (evals : List (String × Except ReadError SequenceResults)) :
    List (String × SequenceResults) :=
  evals.filterMap fun p =>
    match p.2 with
    | Except.ok r => some (p.1, r)
    | Except.error _ => none

/-- C8: failures are isolated per sequence at the top-level driver — a
sequence's result is recorded exactly when its own evaluation succeeded,
regardless of any error raised by any other sequence's evaluation; failed
sequences are simply omitted from the recorded results. -/
theorem driver_isolates_failures (evals : List (String × Except ReadError SequenceResults))
    (name : String) (r : SequenceResults) :
    (name, r) ∈ record_results evals ↔ (name, Except.ok r) ∈ evals := by
  rw [record_results, List.mem_filterMap]
  constructor
  · rintro ⟨⟨n, e⟩, hmem, heq⟩
    cases e with
    | ok r2 =>
      simp only [Option.some.injEq, Prod.mk.injEq] at heq
      obtain ⟨h1, h2⟩ := heq
      subst h1
      subst h2
      exact hmem
    | error _ => simp at heq
  · intro hmem
    exact ⟨(name, Except.ok r), hmem, rfl⟩

/-- One data row of the per-sequence CSV written by `main` (lines 406–425),
with the running sums and the percentages exactly as computed there. -/
structure CsvRow where
  frameIdx : ℕ
  framePct : ℝ
  relocSuccess : Bool
  relocSum : ℕ
  relocPct : ℝ
  icpSuccess : Bool
  icpSum : ℕ
  icpPct : ℝ

/-- The CSV row loop of `main`: `remaining` counts down from `poseCount`
while `poseIdx` counts up from 0; `relocSum`/`icpSum` are the running sums.
Each row records `framePct = poseIdx / poseCount` and the running
percentages `relocSum / poseIdx`, `icpSum / poseIdx` — dividing by the
loop variable itself, not the number of frames processed so far. -/
noncomputable def csvRowsAux (r : SequenceResults) :
    ℕ → ℕ → ℕ → ℕ → List CsvRow
  | 0, _, _, _ => []
  | remaining + 1, poseIdx, relocSum, icpSum =>
    let relocSuccess := r.relocalizationResults.getD poseIdx false
    let icpSuccess := r.icpResults.getD poseIdx false
    let relocSum' := relocSum + (if relocSuccess then 1 else 0)
    let icpSum' := icpSum + (if icpSuccess then 1 else 0)
    { frameIdx := poseIdx
      framePct := (poseIdx : ℝ) / (r.poseCount : ℝ)
      relocSuccess := relocSuccess
      relocSum := relocSum'
      relocPct := (relocSum' : ℝ) / (poseIdx : ℝ)
      icpSuccess := icpSuccess
      icpSum := icpSum'
      icpPct := (icpSum' : ℝ) / (poseIdx : ℝ) } ::
      csvRowsAux r remaining (poseIdx + 1) relocSum' icpSum'

/-- The data rows of the CSV file written for one sequence (the header line
precedes them in the file). -/
noncomputable def csvRows (r : SequenceResults) : List CsvRow :=
  csvRowsAux r r.poseCount 0 0 0

lemma csvRowsAux_length (r : SequenceResults) :
    ∀ n poseIdx relocSum icpSum, (csvRowsAux r n poseIdx relocSum icpSum).length = n := by
  intro n
  induction n with
  | zero => intro poseIdx a b; rfl
  | succ k ih =>
    intro poseIdx a b
    rw [csvRowsAux]
    rw [List.length_cons, ih]

/-- A one-frame sequence whose single relocalisation (and ICP) succeeded. -/
def seqOneFrame : SequenceResults := ⟨1, 1, 1, 1, [true], [true], [true]⟩

/-- C9 (code bug): the CSV writer does emit exactly `poseCount` data rows,
but the first data row's running percentages are `relocSum / 0`: for a
one-frame sequence with a successful relocalisation the row records
`relocSum = 1` yet `relocPct = 1 / 0` — a division by zero (IEEE `inf` in
the C++ floats; the junk value `0` in this real-valued idealisation), not
the well-defined `100%` the claim requires. -/
theorem csv_first_row_divides_by_zero :
    (∀ r : SequenceResults, (csvRows r).length = r.poseCount) ∧
      (∃ row, (csvRows seqOneFrame).head? = some row ∧ row.frameIdx = 0 ∧
        row.relocSum = 1 ∧ row.relocPct = (1 : ℝ) / (0 : ℝ) ∧ row.relocPct = 0) := by
  constructor
  · intro r
    rw [csvRows, csvRowsAux_length]
  · have hrows : csvRows seqOneFrame =
        [{ frameIdx := 0, framePct := 0, relocSuccess := true, relocSum := 1,
           relocPct := 0, icpSuccess := true, icpSum := 1, icpPct := 0 }] := by
      rw [csvRows]
      rw [show seqOneFrame.poseCount = 1 from rfl]
      rw [csvRowsAux, csvRowsAux]
      simp [seqOneFrame]
    refine ⟨_, by rw [hrows]; rfl, rfl, rfl, ?_, rfl⟩
    rw [div_zero]
